import Mathlib

/-!
Verification of the innomightlabs-cli agent runtime core against its
natural-language specification.

The Lean definitions below are a shallow embedding of the Python sources:

* `src/common/utils.py` — `extract_json_from_text`, `extract_user_facing_text`
* `src/common/models.py` — `Message`, `BaseTool`
* `src/common/decorators.py` — the `Tool` schema deriver
* `src/conversation_manager/sliding_window_conversation_manager.py`
* `src/conversation_manager/token_aware_conversation_manager.py`
* `src/agents/krishna_agent.py` — the action loop
* `src/agents/plan_act_observe_agent/plan_act_observe_agent.py`

JSON values are modelled by the inductive `JVal`; Python `dict` equality
(order-insensitive, with Python's `True == 1` numeric cross-equality) is
modelled by `pyEq`.  Machine-level details that no claim touches (byte-level
NDJSON encoding, tiktoken, the AWS client) are modelled at the abstraction
level described in the comment of each definition.
-/

/-- A JSON value as produced by Python's `json` module.  Objects keep their
insertion order (Python `dict`), with duplicate keys already collapsed
last-wins at parse time, as `json.loads` does. -/
inductive JVal where
  | jnull : JVal
  | jb : Bool → JVal
  | jnum : Rat → JVal
  | js : String → JVal
  | jarr : List JVal → JVal
  | jobj : List (String × JVal) → JVal

namespace JVal

/-- Insert a key/value pair into an object's field list with Python `dict`
semantics: an existing key keeps its position and gets the new value,
a fresh key is appended. -/
def objInsert (k : String) (v : JVal) : List (String × JVal) → List (String × JVal)
  | [] => [(k, v)]
  | (k', v') :: rest =>
    if k = k' then (k, v) :: rest else (k', v') :: objInsert k v rest

/-- First value bound to `k` in a field list. -/
def objLookup (k : String) : List (String × JVal) → Option JVal
  | [] => none
  | (k', v) :: rest => if k = k' then some v else objLookup k rest

end JVal

namespace JVal

/-- The numeric value of a decoded JSON value under Python `==`
(`True == 1`, `False == 0`, `1 == 1.0`); `none` for non-numeric values. -/
def jnumVal : JVal → Option Rat
  | jb b => some (if b then 1 else 0)
  | jnum q => some q
  | _ => none

/-- Python `==` on decoded JSON values (`tool_params == schema` and the
like), fuelled for kernel reducibility: `dict`s compare by key set and
per-key values (insertion order irrelevant, duplicate keys are already
collapsed at parse time), lists pointwise, numbers and booleans through
their numeric value.  The fuel bounds the nesting depth. -/
def pyEqFuel : Nat → JVal → JVal → Bool
  | 0, _, _ => false
  | fuel + 1, a, b =>
    match a, b with
    | jnull, jnull => true
    | js s, js t => s == t
    | jarr xs, jarr ys =>
      xs.length == ys.length &&
        (xs.zip ys).all fun p => pyEqFuel fuel p.1 p.2
    | jobj fs, jobj gs =>
      fs.length == gs.length &&
        fs.all fun kv =>
          match objLookup kv.1 gs with
          | some w => pyEqFuel fuel kv.2 w
          | none => false
    | a, b =>
      match jnumVal a, jnumVal b with
      | some p, some q => p == q
      | _, _ => false

/-- Fuel for `pyEq`: far beyond any nesting depth a decoded value can have
(parse depth is bounded by the input length; schemas are finite literals). -/
def pyEqMaxDepth : Nat := 1000000

/-- Python `==`. -/
def pyEq (a b : JVal) : Bool := pyEqFuel pyEqMaxDepth a b

/-- Is this value a Python `dict` (`isinstance(x, dict)`)? -/
def isObj : JVal → Bool
  | jobj _ => true
  | _ => false

end JVal

/-! ## A model of Python's `json` decoder

`common/utils.py` finds actions with `json.JSONDecoder().raw_decode`.  The
parser below follows the JSON grammar accepted by Python's `json` module
(strict mode): whitespace is space/tab/newline/carriage-return, strings use
the standard escapes, numbers are `-?(0|[1-9][0-9]*)(.[0-9]+)?([eE][+-]?[0-9]+)?`.
Numbers are decoded into `Rat` (exact decimal value); the non-standard
`NaN`/`Infinity` literals are not modelled (no claim touches them).
Recursion is fuelled; `rawDecode` supplies fuel that dominates any possible
number of recursive calls for the given input. -/

/-- JSON whitespace skip. -/
def skipWs (cs : List Char) : List Char :=
  cs.dropWhile fun c => c = ' ' ∨ c = '\t' ∨ c = '\n' ∨ c = '\r'

/-- Hexadecimal digit value. -/
def hexVal (c : Char) : Option Nat :=
  if '0' ≤ c ∧ c ≤ '9' then some (c.toNat - '0'.toNat)
  else if 'a' ≤ c ∧ c ≤ 'f' then some (c.toNat - 'a'.toNat + 10)
  else if 'A' ≤ c ∧ c ≤ 'F' then some (c.toNat - 'A'.toNat + 10)
  else none

/-- Decode the body of a JSON string literal (after the opening quote),
returning the decoded characters and the input after the closing quote. -/
def parseStrChars : List Char → Option (List Char × List Char)
  | [] => none
  | '"' :: rest => some ([], rest)
  | '\\' :: esc =>
    match esc with
    | [] => none
    | e :: rest =>
      match e with
      | '"' => (parseStrChars rest).map fun p => ('"' :: p.1, p.2)
      | '\\' => (parseStrChars rest).map fun p => ('\\' :: p.1, p.2)
      | '/' => (parseStrChars rest).map fun p => ('/' :: p.1, p.2)
      | 'b' => (parseStrChars rest).map fun p => (Char.ofNat 8 :: p.1, p.2)
      | 'f' => (parseStrChars rest).map fun p => (Char.ofNat 12 :: p.1, p.2)
      | 'n' => (parseStrChars rest).map fun p => ('\n' :: p.1, p.2)
      | 'r' => (parseStrChars rest).map fun p => ('\r' :: p.1, p.2)
      | 't' => (parseStrChars rest).map fun p => ('\t' :: p.1, p.2)
      | 'u' =>
        match rest with
        | a :: b :: c :: d :: rest' =>
          match hexVal a, hexVal b, hexVal c, hexVal d with
          | some ha, some hb, some hc, some hd =>
            let code := ((ha * 16 + hb) * 16 + hc) * 16 + hd
            (parseStrChars rest').map fun p => (Char.ofNat code :: p.1, p.2)
          | _, _, _, _ => none
        | _ => none
      | _ => none
  | c :: rest =>
    if c.toNat < 32 then none
    else (parseStrChars rest).map fun p => (c :: p.1, p.2)

/-- Digits to a natural number. -/
def digitsToNat (ds : List Char) : Nat :=
  ds.foldl (fun acc c => acc * 10 + (c.toNat - '0'.toNat)) 0

/-- Decode a JSON number per Python's `json` number grammar, as an exact `Rat`. -/
def parseNumber (cs : List Char) : Option (Rat × List Char) :=
  let (neg, cs₁) :=
    match cs with
    | '-' :: rest => (true, rest)
    | _ => (false, cs)
  match cs₁ with
  | [] => none
  | c :: _ =>
    if ¬ c.isDigit then none
    else if c = '0' ∧ ((cs₁.drop 1).headD ' ').isDigit then none
    else
      let intDigits := cs₁.takeWhile Char.isDigit
      let cs₂ := cs₁.dropWhile Char.isDigit
      let (fracDigits, cs₃) :=
        match cs₂ with
        | '.' :: rest =>
          (rest.takeWhile Char.isDigit, rest.dropWhile Char.isDigit)
        | _ => ([], cs₂)
      if cs₂ ≠ cs₃ ∧ fracDigits = [] then none
      else
        let (expOk, expNeg, expDigits, cs₄) :=
          match cs₃ with
          | 'e' :: '+' :: rest => (true, false, rest.takeWhile Char.isDigit, rest.dropWhile Char.isDigit)
          | 'e' :: '-' :: rest => (true, true, rest.takeWhile Char.isDigit, rest.dropWhile Char.isDigit)
          | 'e' :: rest => (true, false, rest.takeWhile Char.isDigit, rest.dropWhile Char.isDigit)
          | 'E' :: '+' :: rest => (true, false, rest.takeWhile Char.isDigit, rest.dropWhile Char.isDigit)
          | 'E' :: '-' :: rest => (true, true, rest.takeWhile Char.isDigit, rest.dropWhile Char.isDigit)
          | 'E' :: rest => (true, false, rest.takeWhile Char.isDigit, rest.dropWhile Char.isDigit)
          | _ => (false, false, [], cs₃)
        if expOk ∧ expDigits = [] then none
        else
          let mantissa : Int := Int.ofNat (digitsToNat (intDigits ++ fracDigits))
          let mantissa := if neg then -mantissa else mantissa
          let e10 : Int := (if expNeg then -(Int.ofNat (digitsToNat expDigits))
                            else Int.ofNat (digitsToNat expDigits)) - Int.ofNat fracDigits.length
          let q : Rat :=
            if 0 ≤ e10 then (mantissa : Rat) * ((10 : Rat) ^ e10.toNat)
            else (mantissa : Rat) / ((10 : Rat) ^ (-e10).toNat)
          some (q, cs₄)

mutual

/-- Decode one JSON value starting exactly at the head of the input
(no leading whitespace), as `json.JSONDecoder.raw_decode` does. -/
def parseValue : Nat → List Char → Option (JVal × List Char)
  | 0, _ => none
  | fuel + 1, cs =>
    match cs with
    | '{' :: rest =>
      let rest := skipWs rest
      (match rest with
       | '}' :: r => some (.jobj [], r)
       | _ => parseMembers fuel rest [])
    | '[' :: rest =>
      let rest := skipWs rest
      (match rest with
       | ']' :: r => some (.jarr [], r)
       | _ => parseItems fuel rest [])
    | '"' :: rest => (parseStrChars rest).map fun p => (.js (String.mk p.1), p.2)
    | 't' :: 'r' :: 'u' :: 'e' :: r => some (.jb true, r)
    | 'f' :: 'a' :: 'l' :: 's' :: 'e' :: r => some (.jb false, r)
    | 'n' :: 'u' :: 'l' :: 'l' :: r => some (.jnull, r)
    | _ => (parseNumber cs).map fun p => (.jnum p.1, p.2)

/-- Decode the members of a JSON object (positioned at a key). -/
def parseMembers : Nat → List Char → List (String × JVal) → Option (JVal × List Char)
  | 0, _, _ => none
  | fuel + 1, cs, acc =>
    match cs with
    | '"' :: rest =>
      match parseStrChars rest with
      | none => none
      | some (keyChars, r₁) =>
        match skipWs r₁ with
        | ':' :: r₂ =>
          match parseValue fuel (skipWs r₂) with
          | none => none
          | some (v, r₃) =>
            let acc := JVal.objInsert (String.mk keyChars) v acc
            (match skipWs r₃ with
             | ',' :: r₄ => parseMembers fuel (skipWs r₄) acc
             | '}' :: r₄ => some (.jobj acc, r₄)
             | _ => none)
        | _ => none
    | _ => none

/-- Decode the items of a JSON array (positioned at a value). -/
def parseItems : Nat → List Char → List JVal → Option (JVal × List Char)
  | 0, _, _ => none
  | fuel + 1, cs, acc =>
    match parseValue fuel cs with
    | none => none
    | some (v, r₁) =>
      (match skipWs r₁ with
       | ',' :: r₂ => parseItems fuel (skipWs r₂) (acc ++ [v])
       | ']' :: r₂ => some (.jarr (acc ++ [v]), r₂)
       | _ => none)

end

/-- `json.JSONDecoder().raw_decode` on a character list: one JSON value at
the head of the input, returning it with the unconsumed remainder. -/
def rawDecode (cs : List Char) : Option (JVal × List Char) :=
  parseValue (16 * (cs.length + 2)) cs

/-- The scan loop of `extract_json_from_text` (`common/utils.py`): walk the
text; at each `{` attempt `raw_decode`; on success return the decoded value
with the exact consumed span, otherwise resume scanning one character later.
(The source's `lstrip` of the fragment is the identity because the fragment
always starts with `{`.) -/
def scanJson : List Char → Option (List Char × JVal)
  | [] => none
  | c :: rest =>
    if c = '{' then
      match rawDecode (c :: rest) with
      | some (v, remaining) =>
        some ((c :: rest).take ((c :: rest).length - remaining.length), v)
      | none => scanJson rest
    else scanJson rest

/-- Python `str.strip()` whitespace. -/
def isPySpace (c : Char) : Bool :=
  c = ' ' ∨ c = '\t' ∨ c = '\n' ∨ c = '\r' ∨ c = Char.ofNat 11 ∨ c = Char.ofNat 12

/-- Python `str.strip()` on a character list. -/
def pyStripChars (cs : List Char) : List Char :=
  ((cs.dropWhile isPySpace).reverse.dropWhile isPySpace).reverse

/-- Python `str.strip()`. -/
def pyStrip (s : String) : String := String.mk (pyStripChars s.toList)

/-- `extract_json_from_text` (`common/utils.py`). The source returns the
extracted span as a (stripped) string, `""` when nothing is found; callers
re-parse it with `json.loads`, which cannot fail on the exact span
`raw_decode` just accepted, so the decoded value is returned alongside.
`none` models the `""` (falsy) result. -/
def extract_json_from_text (text : String) : Option (String × JVal) :=
  (scanJson text.toList).map fun p => (pyStrip (String.mk p.1), p.2)

/-- Remove the first occurrence of `pat` from `hay` (Python
`s[:idx] + s[idx+len(pat):]` after `s.find(pat)`). -/
def removeFirstSub (hay pat : List Char) : List Char :=
  match hay with
  | [] => []
  | c :: rest =>
    if pat.isPrefixOf hay then hay.drop pat.length
    else c :: removeFirstSub rest pat

/-- `extract_user_facing_text` (`common/utils.py`): drop the extracted action
JSON (first occurrence), drop all markdown fences, and strip. `none` for the
second argument models a falsy `action_json`. -/
def extract_user_facing_text (raw_reply : String) (action_json : Option String) : String :=
  if raw_reply = "" then ""
  else
    let remainder :=
      match action_json with
      | some j => if j = "" then raw_reply else String.mk (removeFirstSub raw_reply.toList j.toList)
      | none => raw_reply
    (((remainder.replace "```json" "").replace "```" "")).trim

/-- `Message` (`common/models.py`).  The source also carries `embedding`,
`created_at` and `metadata`, which no claim reads; they are omitted here.
`token_count` is declared `int = Field(default=0)` in the source — it is an
integer defaulting to `0`, never `None` (tiktoken counts are non-negative,
hence `Nat`). -/
structure Message where
  role : String
  content : String
  token_count : Nat := 0
  deriving Repr, DecidableEq

/-! ## `SlidingWindowConversationManager` (`sliding_window_conversation_manager.py`)

The durable NDJSON log is modelled at the record level: a file system is a
map from path strings to the list of `Message` records the file decodes to.
This abstracts exactly the byte-level concerns the spec calls "normalization
of the on-disk format" (newline placement, several JSON objects on one
physical line): loading decodes every record in order and writing appends
records, which is what `finalize`/`_decode_ndjson_line`/`_rewrite_history_file`
do to the record sequence.  All path strings are kept verbatim, so the
constructor's existence check is modelled byte-for-byte. -/

/-- A record-level file system: path ↦ decoded message records. -/
abbrev FileSys := List (String × List Message)

/-- Content of a path (`os.path.exists` + read). -/
def fsLookup (path : String) : FileSys → Option (List Message)
  | [] => none
  | (p, c) :: rest => if p = path then some c else fsLookup path rest

/-- Write (replace or create) the content of a path. -/
def fsWrite (path : String) (content : List Message) : FileSys → FileSys
  | [] => [(path, content)]
  | (p, c) :: rest =>
    if p = path then (p, content) :: rest else (p, c) :: fsWrite path content rest

/-- The class attribute `conversation_file = f"{ROOT}/.krishna/conversation_history.ndjson"`;
`ROOT` (an absolute directory) is a parameter here. -/
def sw_default_file (root : String) : String :=
  root ++ "/.krishna/conversation_history.ndjson"

/-- State of a `SlidingWindowConversationManager` instance. -/
structure SWState where
  messages : List Message
  persisted_count : Nat
  persist_to_file : Bool
  conversation_file : String
  deriving Repr, DecidableEq

/-- `SlidingWindowConversationManager.__init__`.  Mirrors the source exactly:
the early-return existence check probes `f"{ROOT}/.krishna/{self._conversation_file}"`
(note: `self._conversation_file` is itself a full path), while the actual
`open` uses `self._conversation_file`; when a non-empty log is loaded the
file is rewritten with all loaded messages (`_rewrite_history_file`).
`Except` carries the `FileNotFoundError` the `open` would raise if the probe
succeeded for a path whose content is absent. -/
def sw_init (root : String) (persist_to_file : Bool := true)
    (conversation_file : Option String := none) (fs : FileSys) :
    Except String (SWState × FileSys) :=
  let file := conversation_file.getD (sw_default_file root)
  if ¬ persist_to_file then .ok (⟨[], 0, persist_to_file, file⟩, fs)
  else if (fsLookup (root ++ "/.krishna/" ++ file) fs).isNone then
    .ok (⟨[], 0, persist_to_file, file⟩, fs)
  else
    match fsLookup file fs with
    | none => .error "FileNotFoundError"
    | some records =>
      let st : SWState := ⟨records, records.length, persist_to_file, file⟩
      if records = [] then .ok (st, fs)
      else .ok (st, fsWrite file records fs)

/-- `SlidingWindowConversationManager.add_message`. -/
def sw_add_message (s : SWState) (m : Message) : SWState :=
  { s with messages := s.messages ++ [m] }

/-- Python `lst[-w:]` for a natural `w` (for `w = 0` this is the whole list). -/
def pyLastSlice (w : Nat) (l : List α) : List α :=
  if w = 0 then l else l.drop (l.length - w)

/-- `SlidingWindowConversationManager.fetch_conversation`: filter out
`"system"`-role messages, then the last `window_size` of the rest. -/
def sw_fetch_conversation (s : SWState) (window_size : Nat := 50) : List Message :=
  pyLastSlice window_size (s.messages.filter fun m => m.role ≠ "system")

/-- `SlidingWindowConversationManager.finalize`.  Returns the new state, the
new file system, and the records appended to the log in this call. -/
def sw_finalize (s : SWState) (fs : FileSys) : SWState × FileSys × List Message :=
  if ¬ s.persist_to_file then (s, fs, [])
  else if s.messages.length ≤ s.persisted_count then (s, fs, [])
  else
    let new_messages := s.messages.drop s.persisted_count
    if new_messages = [] then (s, fs, [])
    else
      let serialized := new_messages.filter fun m => m.role ≠ "system"
      let old := (fsLookup s.conversation_file fs).getD []
      ({ s with persisted_count := s.messages.length },
       fsWrite s.conversation_file (old ++ serialized) fs,
       serialized)

/-! ## `TokenAwareConversationManager` (`token_aware_conversation_manager.py`)

`Message.token_count` is `int = Field(default=0)` — an integer, never `None` —
so `count_message_tokens` always returns the cached field and its tiktoken
fallback branch is dead code; the same makes the `if message.token_count is
None` caching assignment in `add_message` a no-op.  The running
`total_tokens` is a Python `int`, hence `Int` here. -/

/-- `OverflowStrategy` enum. -/
inductive OverflowStrategy where
  | drop_oldest
  | summarize
  | truncate_middle
  deriving Repr, DecidableEq

/-- `TokenAwareConversationManager.count_message_tokens`: the cached
`token_count` (the tiktoken fallback is unreachable, see section comment). -/
def count_message_tokens (m : Message) : Int := m.token_count

/-- Sum of `count_message_tokens` over a list (`_recalculate_tokens`). -/
def sumTokens (l : List Message) : Int := (l.map count_message_tokens).sum

/-- State of a `TokenAwareConversationManager` instance.  The summarizer
callback may raise (`Except.error`). -/
structure TAState where
  max_tokens : Int
  reserve_tokens : Int
  overflow_strategy : OverflowStrategy
  summarizer_func : Option (List Message → Except String String)
  messages : List Message
  total_tokens : Int

/-- `TokenAwareConversationManager.__init__` (conversation state starts empty). -/
def ta_init (max_tokens : Int := 120000) (overflow_strategy : OverflowStrategy)
    (reserve_tokens : Int := 500)
    (summarizer_func : Option (List Message → Except String String) := none) : TAState :=
  ⟨max_tokens, reserve_tokens, overflow_strategy, summarizer_func, [], 0⟩

/-- The `while self.total_tokens > target_tokens and self.messages` loop of
`_drop_oldest_messages`, returning the remaining messages and total. -/
def dropLoop (target : Int) : List Message → Int → List Message × Int
  | [], total => ([], total)
  | m :: rest, total =>
    if total ≤ target then (m :: rest, total)
    else dropLoop target rest (total - count_message_tokens m)

/-- `TokenAwareConversationManager._drop_oldest_messages`. -/
def ta_drop_oldest (target : Int) (s : TAState) : TAState :=
  let r := dropLoop target s.messages s.total_tokens
  { s with messages := r.1, total_tokens := r.2 }

/-- `TokenAwareConversationManager._recalculate_tokens`. -/
def ta_recalculate (s : TAState) : TAState :=
  { s with total_tokens := sumTokens s.messages }

/-- The `for message in reversed(self.messages)` selection loop of
`_summarize_conversation`: the input is the reversed (newest-first) message
list; the result is `(messages_to_keep, messages_to_summarize)` in that same
newest-first order plus the final `temp_tokens`. -/
def splitRev (half : Int) : List Message → Int → List Message × List Message × Int
  | [], temp => ([], [], temp)
  | m :: rest, temp =>
    if temp + count_message_tokens m < half then
      let r := splitRev half rest (temp + count_message_tokens m)
      (m :: r.1, r.2.1, r.2.2)
    else
      let r := splitRev half rest temp
      (r.1, m :: r.2.1, r.2.2)

/-- `TokenAwareConversationManager._summarize_conversation`.  Python's
`target_tokens // 2` floors, hence `Int.fdiv`.  When the callback raises,
`self.messages` is still untouched, so the fallback drops from the original
list.  When `messages_to_summarize` is empty nothing at all happens. -/
def ta_summarize (target : Int) (s : TAState) : TAState :=
  if s.summarizer_func.isNone ∨ s.messages.length < 4 then ta_drop_oldest target s
  else
    let half := Int.fdiv target 2
    let r := splitRev half s.messages.reverse 0
    let keep := r.1.reverse
    let summ := r.2.1.reverse
    if summ = [] then s
    else
      match s.summarizer_func with
      | none => ta_drop_oldest target s
      | some f =>
        match f summ with
        | .ok summary =>
          let summary_message : Message :=
            { role := "system", content := "[Conversation Summary]: " ++ summary }
          ta_recalculate { s with messages := summary_message :: keep }
        | .error _ => ta_drop_oldest target s

/-- `TokenAwareConversationManager._truncate_middle_messages`. -/
def ta_truncate_middle (target : Int) (s : TAState) : TAState :=
  if s.messages.length ≤ 4 then ta_drop_oldest target s
  else
    let first_messages := s.messages.take 2
    let last_messages := s.messages.drop (s.messages.length - 2)
    ta_recalculate { s with messages := first_messages ++ last_messages }

/-- `TokenAwareConversationManager._handle_overflow`. -/
def ta_handle_overflow (s : TAState) : TAState :=
  if s.total_tokens + s.reserve_tokens ≤ s.max_tokens then s
  else
    let target := s.max_tokens - s.reserve_tokens
    match s.overflow_strategy with
    | .drop_oldest => ta_drop_oldest target s
    | .summarize => ta_summarize target s
    | .truncate_middle => ta_truncate_middle target s

/-- `TokenAwareConversationManager.add_message`: count (= read the cached
field), append, accumulate the running total, then handle overflow. -/
def ta_add_message (s : TAState) (m : Message) : TAState :=
  let message_tokens := count_message_tokens m
  ta_handle_overflow
    { s with messages := s.messages ++ [m],
             total_tokens := s.total_tokens + message_tokens }

/-- `TokenAwareConversationManager.fetch_conversation`: drop `system` and
`tool` roles, then the last `window_size`. -/
def ta_fetch_conversation (s : TAState) (window_size : Nat := 20) : List Message :=
  pyLastSlice window_size
    (s.messages.filter fun m => ¬ (m.role = "system" ∨ m.role = "tool"))

/-! ## The `Tool` schema deriver (`common/decorators.py`)

A callable's parameter list is modelled as a list of `PyParam`; the runtime
type annotations it can carry are modelled by the inductive `PyAnn`, one
constructor per case the deriver distinguishes.  A `BaseModel` subclass is
carried as its `model_json_schema()` value, an unknown plain type as
`pother` (the silent `{"type": "string"}` degrade), an unknown
parameterised origin as `pgeneric` (the `schema = {}` arm). -/

/-- `pydantic.fields.FieldInfo` metadata attached via `Annotated`. -/
structure FieldMeta where
  description : Option String
  examples : Option (List JVal)

/-- A runtime type annotation as the deriver inspects it. -/
inductive PyAnn where
  | pstr
  | pint
  | pfloat
  | pbool
  | pany
  | noneT
  | pmodel (schema : JVal)
  | pother
  | plist (item : Option PyAnn)
  | pdict (args : List PyAnn)
  | ptuple (args : List PyAnn)
  | pset (item : Option PyAnn)
  | plit (vals : List JVal)
  | punion (args : List PyAnn)
  | pannotated (base : PyAnn) (field : Option FieldMeta)
  | pgeneric

/-- `unwrap_annotation`: peel `Annotated` layers; at each layer a present
`FieldInfo` overwrites the one found so far. -/
def unwrapAnn : PyAnn → Option FieldMeta → PyAnn × Option FieldMeta
  | .pannotated base fi, acc =>
    unwrapAnn base (match fi with | some x => some x | none => acc)
  | a, acc => (a, acc)

/-- Is the annotation `NoneType`? -/
def isNoneT : PyAnn → Bool
  | .noneT => true
  | _ => false

/-- `is_optional`: after unwrapping, a `Union` with a `NoneType` member. -/
def is_optional (ann : PyAnn) : Bool :=
  match (unwrapAnn ann none).1 with
  | .punion args => args.any isNoneT
  | _ => false

theorem sizeOf_unwrapAnn :
    ∀ (ann : PyAnn) (acc : Option FieldMeta), sizeOf (unwrapAnn ann acc).1 ≤ sizeOf ann
  | .pannotated base fi, acc => by
    simp only [unwrapAnn]
    have h := sizeOf_unwrapAnn base (match fi with | some x => some x | none => acc)
    have hb : sizeOf base < sizeOf (PyAnn.pannotated base fi) := by
      simp only [PyAnn.pannotated.sizeOf_spec]
      omega
    omega
  | .pstr, _ => by simp [unwrapAnn]
  | .pint, _ => by simp [unwrapAnn]
  | .pfloat, _ => by simp [unwrapAnn]
  | .pbool, _ => by simp [unwrapAnn]
  | .pany, _ => by simp [unwrapAnn]
  | .noneT, _ => by simp [unwrapAnn]
  | .pmodel _, _ => by simp [unwrapAnn]
  | .pother, _ => by simp [unwrapAnn]
  | .plist _, _ => by simp [unwrapAnn]
  | .pdict _, _ => by simp [unwrapAnn]
  | .ptuple _, _ => by simp [unwrapAnn]
  | .pset _, _ => by simp [unwrapAnn]
  | .plit _, _ => by simp [unwrapAnn]
  | .punion _, _ => by simp [unwrapAnn]
  | .pgeneric, _ => by simp [unwrapAnn]

/-- Literal value classifiers for the `Literal[...]` type hint
(`isinstance(arg, int)` is true for Python `bool`s, and the `bool` check
runs before the `int` check in the source). -/
def isStrLit : JVal → Bool
  | .js _ => true
  | _ => false

/-- Literal is a Python `bool`. -/
def isBoolLit : JVal → Bool
  | .jb _ => true
  | _ => false

/-- Literal is a Python `int` (which includes `bool`). -/
def isIntLit : JVal → Bool
  | .jb _ => true
  | .jnum q => q.den = 1
  | _ => false

/-- Python `dict.setdefault`: insert (at the end) only when the key is absent. -/
def objSetDefault (k : String) (v : JVal) (fs : List (String × JVal)) :
    List (String × JVal) :=
  match JVal.objLookup k fs with
  | some _ => fs
  | none => fs ++ [(k, v)]

/-- `annotation_to_schema` of `common/decorators.py`.  `FieldMeta` options
model Python truthiness of `field_info.description` / `field_info.examples`
(an empty string or list is falsy and skipped, hence `none`). -/
def annToSchema (ann : PyAnn) : JVal :=
  match hu : unwrapAnn ann none with
  | (base, field_info) =>
    let fields : List (String × JVal) :=
      match base with
      | .pstr => [("type", .js "string")]
      | .pint => [("type", .js "integer")]
      | .pfloat => [("type", .js "number")]
      | .pbool => [("type", .js "boolean")]
      | .pmodel sch => (match sch with | .jobj fs => fs | _ => [])
      | .pany => []
      | .noneT => [("type", .js "string")]
      | .pother => [("type", .js "string")]
      | .plist item =>
        [("type", .js "array"),
         ("items", match item with
                   | some a => annToSchema a
                   | none => .jobj [])]
      | .pdict args =>
        [("type", .js "object"),
         ("additionalProperties",
          match hl : args.getLast? with
          | some v => annToSchema v
          | none => .jobj [])]
      | .ptuple args =>
        [("type", .js "array"),
         ("prefixItems", .jarr (args.attach.map fun x => annToSchema x.1))]
      | .pset item =>
        [("type", .js "array"), ("uniqueItems", .jb true),
         ("items", match item with
                   | some a => annToSchema a
                   | none => .jobj [])]
      | .plit vals =>
        let sch := [("enum", .jarr vals)]
        if (!vals.isEmpty) && vals.all isStrLit then
          JVal.objInsert "type" (.js "string") sch
        else if (!vals.isEmpty) && vals.all isBoolLit then
          JVal.objInsert "type" (.js "boolean") sch
        else if (!vals.isEmpty) && vals.all isIntLit then
          JVal.objInsert "type" (.js "integer") sch
        else sch
      | .punion args =>
        let ua := args.filter fun a => ¬ isNoneT a
        (match hua : ua with
         | [a] =>
           (match annToSchema a with
            | .jobj fs => fs
            | _ => [])
         | _ => [("anyOf", .jarr (ua.attach.map fun x => annToSchema x.1))])
      | .pannotated _ _ => []
      | .pgeneric => []
    let fields :=
      match field_info with
      | some f =>
        let f1 := match f.description with
                  | some d => JVal.objInsert "description" (.js d) fields
                  | none => fields
        match f.examples with
        | some ex => JVal.objInsert "examples" (.jarr ex) f1
        | none => f1
      | none => fields
    .jobj fields
termination_by sizeOf ann
decreasing_by
  all_goals simp_wf
  all_goals
    have h := sizeOf_unwrapAnn ann none
  all_goals rw [hu] at h
  all_goals simp at h
  · omega
  · have hv : v ∈ args := by
      obtain ⟨hne, heq⟩ := List.mem_getLast?_eq_getLast (Option.mem_def.mpr hl)
      rw [heq]
      exact List.getLast_mem hne
    have := List.sizeOf_lt_of_mem hv
    omega
  · have := List.sizeOf_lt_of_mem x.2
    omega
  · omega
  · have ha : a ∈ args := by
      have hm : a ∈ ua := by rw [hua]; exact List.mem_singleton.mpr rfl
      exact List.mem_of_mem_filter hm
    have := List.sizeOf_lt_of_mem ha
    omega
  · have hx : x.1 ∈ args := List.mem_of_mem_filter x.2
    have := List.sizeOf_lt_of_mem hx
    omega
/-- Outcome of calling a tool handler `func(**kwargs)` — a Python callable
either returns a value (`none` models returning `None`, `some s` a value
whose `str()` is `s`), raises `TypeError` (argument-shape mismatch), or
raises some other exception. -/
inductive ToolOutcome where
  | ok (value : Option String)
  | typeError (msg : String)
  | raised (msg : String)

/-- `BaseTool` (`common/models.py`): name, description, derived parameter
schema and the handler. -/
structure BaseTool where
  tool_name : String
  description : String := ""
  tool_params : JVal := .jobj []
  func : JVal → ToolOutcome

/-- One formal parameter of a callable as `inspect.signature` and
`get_type_hints` expose it: its name, its default (`none` =
`inspect._empty`), and its annotation (`none` = no hint, which the source
reads as `Any`). -/
structure PyParam where
  name : String
  default : Option JVal := none
  ann : Option PyAnn := none

/-- The body of the parameter loop of the `Tool` decorator: build
`properties` and `required` in signature order, skipping `self`; a
parameter with a default gets `setdefault("default", ...)` on its schema,
one without a default and not optional is appended to `required`. -/
def toolStep (acc : List (String × JVal) × List String) (p : PyParam) :
    List (String × JVal) × List String :=
  if p.name = "self" then acc
  else
    let a := p.ann.getD .pany
    let param_schema := annToSchema a
    let param_schema :=
      match p.default with
      | some d =>
        (match param_schema with
         | .jobj fs => JVal.jobj (objSetDefault "default" d fs)
         | v => v)
      | none => param_schema
    let required :=
      match p.default with
      | some _ => acc.2
      | none => if ¬ is_optional a then acc.2 ++ [p.name] else acc.2
    (JVal.objInsert p.name param_schema acc.1, required)

/-- The parameter loop as a fold over the signature's parameters. -/
def toolDerive (params : List PyParam) :
    List (String × JVal) × List String :=
  params.foldl toolStep ([], [])

/-- The `Tool` decorator (`common/decorators.py`): derive the
`params_schema` and wrap everything in a `BaseTool`. -/
def Tool (func_name : String) (doc : Option String) (params : List PyParam)
    (func : JVal → ToolOutcome) : BaseTool :=
  let pr := toolDerive params
  let params_schema : List (String × JVal) :=
    [("type", .js "object"), ("properties", .jobj pr.1),
     ("additionalProperties", .jb false)]
  let params_schema :=
    if pr.2 ≠ [] then params_schema ++ [("required", .jarr (pr.2.map JVal.js))]
    else params_schema
  { tool_name := func_name,
    description := doc.getD "No description provided.",
    tool_params := .jobj params_schema,
    func := func }

/-! ## `KrishnaAgent` (`agents/krishna_agent.py`)

The agent is generic over its `BaseConversationManager`; the embedding takes
the manager's `add_message` as a state-transformer parameter `add` over an
abstract state `σ`.  The model backend `llm.invoke` is modelled as a
function from the invocation index to the textual reply: the prompt built by
`build_prompt` feeds only the backend, over which every theorem quantifies,
so prompt rendering and the token-usage bookkeeping (observability only) are
not re-modelled.  Replies are always textual in this model, so the
`not isinstance(content, str)` abort is unreachable here. -/

/-- Modelled from the spec: `krishna_agent.py` imports `Action` from
`common.models`, but no `Action` class exists anywhere under the sources —
only its callers do.  Spec §3 gives `Action` as `{thought: optional text,
tool_call: {tool_name, tool_params}, request_heartbeat: boolean}`; the
caller accesses `action.tool.tool_name`, `action.tool.tool_params` and
`action.request_heartbeat`, and its own prompt fixes the JSON shape
`{"tool": {"tool_name": ..., "tool_params": {...}}, "request_heartbeat":
<bool>}`, so the nested field is named `tool` here.  `tool_params` stays an
arbitrary JSON value: the source separately checks
`isinstance(action.tool.tool_params, dict)`, so validation cannot already
force it to be an object. -/
structure KAction where
  thought : Option String
  tool_name : String
  tool_params : JVal
  request_heartbeat : Bool

/-- Modelled from the spec: pydantic `Action.model_validate` for the class
described above.  The payload must be an object whose `tool` member is an
object with a string `tool_name`; `tool_params` defaults to `{}`;
`request_heartbeat` must be a boolean when present and defaults to `false`;
`thought` is an optional string.  Anything else raises `ValidationError`. -/
def validateAction (v : JVal) : Option KAction :=
  match v with
  | .jobj fs =>
    match JVal.objLookup "tool" fs with
    | some (.jobj tfs) =>
      match JVal.objLookup "tool_name" tfs with
      | some (.js name) =>
        let params := (JVal.objLookup "tool_params" tfs).getD (.jobj [])
        let th : Option (Option String) :=
          match JVal.objLookup "thought" fs with
          | some (.js t) => some (some t)
          | some .jnull => some none
          | none => some none
          | some _ => none
        let hb : Option Bool :=
          match JVal.objLookup "request_heartbeat" fs with
          | some (.jb b) => some b
          | none => some false
          | some _ => none
        match th, hb with
        | some t, some b => some ⟨t, name, params, b⟩
        | _, _ => none
      | _ => none
    | _ => none
  | _ => none

/-- `KrishnaAgent._resolve_tool`: first registered tool with the name. -/
def resolve_tool (tools : List BaseTool) (tool_name : String) : Option BaseTool :=
  tools.find? fun t => t.tool_name == tool_name

/-- Python `str()` of a decoded JSON value, as far as the claims need it
(container and float reprs are not modelled bit-exactly). -/
def pyStr : JVal → String
  | .js s => s
  | .jb true => "True"
  | .jb false => "False"
  | .jnull => "None"
  | .jnum q => if q.den = 1 then toString q.num else toString q
  | .jarr _ => "<list>"
  | .jobj _ => "<dict>"

/-- `KrishnaAgent._format_tool_feedback`.  When dispatch happened the params
were already checked to be a dict, so the non-object arm is unreachable. -/
def format_tool_feedback (action : KAction) (tool_response : Option String) : String :=
  match tool_response with
  | some s => s
  | none =>
    match action.tool_params with
    | .jobj fs =>
      (match JVal.objLookup "content" fs with
       | some v => pyStr v
       | none => "Tool execution completed.")
    | _ => "Tool execution completed."

/-- Corrective / failure message texts of `krishna_agent.py`, verbatim. -/
def no_json_text : String :=
  "Your previous reply did not include the required JSON action. Respond with valid JSON."

/-- Schema-validation corrective text. -/
def schema_fail_text : String :=
  "Action schema validation failed. Ensure the response follows the required format."

/-- Unknown-tool corrective text. -/
def unavailable_text (tool_name available : String) : String :=
  "Tool '" ++ tool_name ++ "' is unavailable. Choose one of: " ++ available ++ "."

/-- Non-object `tool_params` corrective text. -/
def params_not_obj_text : String :=
  "tool.tool_params must be an object containing the call arguments."

/-- Schema-echo corrective text. -/
def schema_echo_text (tool_name : String) : String :=
  "Do not return the parameter schema for '" ++ tool_name ++ "'. Provide actual argument values."

/-- Iteration-limit failure text. -/
def max_iter_text : String :=
  "Maximum tool iterations exceeded. Please refine the request."

/-- `KrishnaAgent._append_tool_error` feedback content. -/
def tool_error_feedback (tool_name msg : String) : String :=
  "ERROR[" ++ tool_name ++ "]: " ++ msg

/-- What one iteration of the Krishna action loop did (for stating theorems;
pure observation of which branch of the source ran). -/
inductive KrEvent where
  | noJson
  | invalidSchema
  | unknownTool (name : String)
  | paramsNotObj
  | schemaEcho (name : String)
  | toolFailed (name feedback : String)
  | dispatched (name feedback : String) (heartbeat : Bool)
  deriving Repr, DecidableEq

/-- One iteration of the body of `KrishnaAgent.send_message`'s `while` loop,
given the backend's reply for this turn: append the assistant message, try
to extract and validate an action, resolve and guard the tool, dispatch.
Returns the new manager state, the chunks yielded to the caller this turn,
whether the loop continues (`action is None or action.request_heartbeat`),
and the branch taken.  (`json.loads` on the exact span `raw_decode` accepted
cannot fail, so the `JSONDecodeError` arm of the source is dead and the
decoded value is used directly.) -/
def krStep {σ : Type} (add : σ → Message → σ) (tools : List BaseTool)
    (reply : String) (s : σ) : σ × List String × Bool × KrEvent :=
  let s := add s ⟨"assistant", reply, 0⟩
  match extract_json_from_text reply with
  | none => (add s ⟨"system", no_json_text, 0⟩, [], true, .noJson)
  | some (_, payload) =>
    match validateAction payload with
    | none => (add s ⟨"system", schema_fail_text, 0⟩, [], true, .invalidSchema)
    | some action =>
      match resolve_tool tools action.tool_name with
      | none =>
        let available := String.intercalate ", " (tools.map BaseTool.tool_name)
        (add s ⟨"system", unavailable_text action.tool_name available, 0⟩, [], true,
         .unknownTool action.tool_name)
      | some selected_tool =>
        if ¬ action.tool_params.isObj then
          (add s ⟨"system", params_not_obj_text, 0⟩, [], true, .paramsNotObj)
        else if JVal.pyEq action.tool_params selected_tool.tool_params then
          (add s ⟨"system", schema_echo_text selected_tool.tool_name, 0⟩, [], true,
           .schemaEcho selected_tool.tool_name)
        else
          match selected_tool.func action.tool_params with
          | .typeError m =>
            let fb := tool_error_feedback selected_tool.tool_name ("Invalid arguments: " ++ m)
            (add s ⟨"tool", fb, 0⟩, [], true, .toolFailed selected_tool.tool_name fb)
          | .raised m =>
            let fb := tool_error_feedback selected_tool.tool_name ("Execution error: " ++ m)
            (add s ⟨"tool", fb, 0⟩, [], true, .toolFailed selected_tool.tool_name fb)
          | .ok v =>
            let fb := format_tool_feedback action v
            let s := add s ⟨"tool", fb, 0⟩
            let ys := if (selected_tool.tool_name != "print_message") &&
                         (selected_tool.tool_name != "send_message") && (fb != "")
                      then [fb] else []
            (s, ys, action.request_heartbeat, .dispatched selected_tool.tool_name fb action.request_heartbeat)

/-- `MAX_AGENT_LOOPS` of `krishna_agent.py`. -/
def MAX_AGENT_LOOPS : Nat := 28

/-- Result of `KrishnaAgent.send_message`: final manager state, yielded
chunks in order, number of model invocations performed, and whether the
iteration limit aborted the request. -/
structure KrResult (σ : Type) where
  finalState : σ
  yields : List String
  iterations : Nat
  hitLimit : Bool
  deriving Repr

/-- The `while action is None or action.request_heartbeat` loop.  `fuel` is
`MAX_AGENT_LOOPS + 1 - turn_counter`: when it reaches `0` the source's
`turn_counter > MAX_AGENT_LOOPS` guard fires, appends the failure message to
the manager and yields it.  `done` counts completed model invocations (also
the 0-based backend index of the next call). -/
def krLoop {σ : Type} (add : σ → Message → σ) (backend : Nat → String)
    (tools : List BaseTool) : Nat → Nat → σ → List String → KrResult σ
  | 0, done, s, ys =>
    ⟨add s ⟨"system", max_iter_text, 0⟩, ys ++ [max_iter_text], done, true⟩
  | fuel + 1, done, s, ys =>
    let r := krStep add tools (backend done) s
    if r.2.2.1 then krLoop add backend tools fuel (done + 1) r.1 (ys ++ r.2.1)
    else ⟨r.1, ys ++ r.2.1, done + 1, false⟩

/-- `send_message` and `print_message` (`tools/send_message.py`): one
required `content: str` parameter each, handlers print and return `None`
(docstrings abbreviated — no claim reads them). -/
def send_message_tool : BaseTool :=
  Tool "send_message" (some "Sends a message to the user.")
    [{ name := "content", ann := some .pstr }] (fun _ => .ok none)

/-- The `print_message` tool. -/
def print_message_tool : BaseTool :=
  Tool "print_message" (some "Prints a message to the console.")
    [{ name := "content", ann := some .pstr }] (fun _ => .ok none)

/-- `KrishnaAgent.__init__` tool configuration: append the default
`print_message` / `send_message` tools when absent. -/
def krishna_configure_tools (tools : List BaseTool) : List BaseTool :=
  let ct := tools
  let ct := if ct.any (fun t => t.tool_name == print_message_tool.tool_name) then ct
            else ct ++ [print_message_tool]
  if ct.any (fun t => t.tool_name == send_message_tool.tool_name) then ct
  else ct ++ [send_message_tool]

/-- `KrishnaAgent.send_message`: add the user message, then run the loop
with `turn_counter` starting at 0. -/
def krishna_send_message {σ : Type} (add : σ → Message → σ) (backend : Nat → String)
    (tools : List BaseTool) (s0 : σ) (user_message : String) : KrResult σ :=
  krLoop add backend (krishna_configure_tools tools) MAX_AGENT_LOOPS 0
    (add s0 ⟨"user", user_message, 0⟩) []

/-! ## `PlanActObserveAgent` (`agents/plan_act_observe_agent/`)

Same modelling conventions as for `KrishnaAgent`: the manager is an abstract
state `σ` with its `add_message` / `finalize` passed in, the backend is
indexed by invocation number (the rendered prompt feeds only the backend),
and the interactive approver of `_ask_approval` is a function from prompt
index to the chosen answer.  Replies are textual (`isinstance(content, str)`
true).  The `while True:` loop of `send_message` has no iteration bound in
the source, so the embedding is fuelled: `PaoOut.outOfFuel` means the loop
is *still running* after the given number of iterations. -/

/-- `Action` of `plan_act_observe_agent_model.py`: a required `thought`
string and a `BaseTool` (validated: required string `tool_name`, object
`tool_params` defaulting to `{}`). -/
structure PaoAction where
  thought : String
  tool_name : String
  tool_params : JVal

/-- Pydantic validation of an embedded `BaseTool` payload. -/
def validateBaseTool (v : JVal) : Option (String × JVal) :=
  match v with
  | .jobj fs =>
    match JVal.objLookup "tool_name" fs with
    | some (.js name) =>
      (match JVal.objLookup "description" fs with
       | some (.js _) => some ()
       | none => some ()
       | some _ => none).bind fun _ =>
      match JVal.objLookup "tool_params" fs with
      | some (.jobj ps) => some (name, .jobj ps)
      | none => some (name, .jobj [])
      | some _ => none
    | _ => none
  | _ => none

/-- Pydantic validation of one plan `Action`. -/
def validatePaoAction (v : JVal) : Option PaoAction :=
  match v with
  | .jobj fs =>
    match JVal.objLookup "thought" fs with
    | some (.js t) =>
      match JVal.objLookup "tool" fs with
      | some tv => (validateBaseTool tv).map fun p => ⟨t, p.1, p.2⟩
      | none => none
    | _ => none
  | _ => none

/-- `ActionPlan.model_validate_json`: `{"plan": [...]}` with every entry a
valid `Action`. -/
def validateActionPlan (v : JVal) : Option (List PaoAction) :=
  match v with
  | .jobj fs =>
    match JVal.objLookup "plan" fs with
    | some (.jarr items) => items.mapM validatePaoAction
    | _ => none
  | _ => none

/-- An answer of the interactive `_ask_approval` prompt:
approve / deny / approve-and-remember / deny-with-correction. -/
inductive PaoAnswer where
  | yes
  | no
  | remember
  | correction (text : String)

/-- Result of `PlanActObserveAgent.send_message`.  `raised` models a tool
exception escaping `send_message` (the source's `try` only catches
`ValidationError`); `outOfFuel` means the unbounded `while True` loop was
still running after the fuelled number of iterations. -/
inductive PaoOut (σ : Type) where
  | finished (final_output : String) (finalState : σ) (iterations : Nat)
  | raised (msg : String) (finalState : σ)
  | outOfFuel (finalState : σ)

/-- Did the loop run out of fuel (still looping)? -/
def PaoOut.isOutOfFuel {σ : Type} : PaoOut σ → Bool
  | .outOfFuel _ => true
  | _ => false

/-- Number of iterations on normal completion (0 otherwise). -/
def PaoOut.iterations {σ : Type} : PaoOut σ → Nat
  | .finished _ _ n => n
  | _ => 0

/-- Final output on normal completion. -/
def PaoOut.output {σ : Type} : PaoOut σ → Option String
  | .finished out _ _ => some out
  | _ => none

/-- The `for action in action_plan.plan` body of `send_message`: resolve by
name (an unknown tool is silently skipped — the `if selected_tool:` has no
`else`), ask approval unless remembered, then dispatch.  A correction is
added as a new user turn; a denial records a `tool_use` denial message; a
handler exception escapes (`.error`).  Threads the manager state, the
`last_observation` text, the remembered `user_choices` and the approval
prompt index.  The `uuid4()` tool-use ids are not modelled (nothing reads
them); the `tool_use[...]` role is kept without the id suffix. -/
def paoActions {σ : Type} (add : σ → Message → σ) (tools : List BaseTool)
    (approve : Nat → PaoAnswer) :
    List PaoAction → σ → String → List String → Nat →
    Except (String × σ) (σ × String × List String × Nat)
  | [], s, lastObs, choices, k => .ok (s, lastObs, choices, k)
  | action :: rest, s, lastObs, choices, k =>
    match tools.filter fun t => t.tool_name == action.tool_name with
    | [] => paoActions add tools approve rest s lastObs choices k
    | t :: _ =>
      let dispatch := fun (choices : List String) (k : Nat) =>
        match t.func action.tool_params with
        | .ok v =>
          let content := v.getD "None"
          let lastObs := lastObs ++ "\nTool Use ID: <id>\n" ++ content ++ "\n\n"
          paoActions add tools approve rest (add s ⟨"tool_use", content, 0⟩) lastObs choices k
        | .typeError m => .error (m, s)
        | .raised m => .error (m, s)
      if choices.contains action.tool_name then dispatch choices k
      else
        match approve k with
        | .yes => dispatch choices (k + 1)
        | .remember => dispatch (choices ++ [action.tool_name]) (k + 1)
        | .correction c =>
          paoActions add tools approve rest (add s ⟨"user", c, 0⟩) lastObs choices (k + 1)
        | .no =>
          paoActions add tools approve rest
            (add s ⟨"tool_use", "User denied tool execution.", 0⟩) lastObs choices (k + 1)

/-- The `while True:` loop of `PlanActObserveAgent.send_message`.  Per
iteration: invoke the backend, split the reply into plan JSON and
user-facing text, append the assistant message, then either execute the
validated plan and loop, append the `ValidationError` corrective user
message and loop, or — when no JSON is present — `finalize` and return the
user-facing text as the final output. -/
def paoLoop {σ : Type} (add : σ → Message → σ) (finalizeOp : σ → σ)
    (tools : List BaseTool) (backend : Nat → String) (approve : Nat → PaoAnswer) :
    Nat → Nat → σ → String → List String → Nat → PaoOut σ
  | 0, _, s, _, _, _ => .outOfFuel s
  | fuel + 1, iters, s, lastObs, choices, k =>
    let reply := backend iters
    match extract_json_from_text reply with
    | none =>
      let response := extract_user_facing_text reply none
      let s := add s ⟨"assistant", response, 0⟩
      .finished response (finalizeOp s) (iters + 1)
    | some (span, payload) =>
      let response := extract_user_facing_text reply (some span)
      let s := add s ⟨"assistant", response, 0⟩
      match validateActionPlan payload with
      | none =>
        let s := add s ⟨"user", "Validation Error! Provider a plan in proper json format.", 0⟩
        paoLoop add finalizeOp tools backend approve fuel (iters + 1) s lastObs choices k
      | some actions =>
        match paoActions add tools approve actions s lastObs choices k with
        | .error (m, s') => .raised m s'
        | .ok (s', lastObs', choices', k') =>
          paoLoop add finalizeOp tools backend approve fuel (iters + 1) s' lastObs' choices' k'

/-- `PlanActObserveAgent.send_message`: add the user message (embedding not
modelled) and run the loop with `last_observation = "None"`, no remembered
choices, and `agent_iterations = 0`. -/
def pao_send_message {σ : Type} (add : σ → Message → σ) (finalizeOp : σ → σ)
    (tools : List BaseTool) (backend : Nat → String) (approve : Nat → PaoAnswer)
    (fuel : Nat) (s0 : σ) (user_message : String) : PaoOut σ :=
  paoLoop add finalizeOp tools backend approve fuel 0
    (add s0 ⟨"user", user_message, 0⟩) "None" [] 0

/-! ## Theorems -/

instance {e a : Type} [DecidableEq e] [DecidableEq a] : DecidableEq (Except e a) := fun x y =>
  match x, y with
  | .ok u, .ok v =>
    if h : u = v then isTrue (by rw [h]) else isFalse (by simp [h])
  | .error u, .error v =>
    if h : u = v then isTrue (by rw [h]) else isFalse (by simp [h])
  | .ok _, .error _ => isFalse (by simp)
  | .error _, .ok _ => isFalse (by simp)

/-- Stated from the spec's words, for comparison with the code: the
parameters (excluding `self`) that have no default value and whose
annotation is not an optional (nullable) union. -/
def requiredSpec (params : List PyParam) : List String :=
  (params.filter fun p =>
    (p.name != "self") && p.default.isNone && !(is_optional (p.ann.getD .pany))).map
    PyParam.name

theorem toolDerive_go (params : List PyParam) (acc : List (String × JVal) × List String) :
    (params.foldl toolStep acc).2 = acc.2 ++ requiredSpec params := by
  induction params generalizing acc with
  | nil => simp [requiredSpec]
  | cons p ps ih =>
    rw [List.foldl_cons, ih]
    by_cases hself : p.name = "self"
    · simp [toolStep, hself, requiredSpec]
    · cases hd : p.default with
      | some d =>
        simp [toolStep, hself, hd, requiredSpec]
      | none =>
        by_cases hopt : is_optional (p.ann.getD .pany)
        · simp [toolStep, hself, hd, hopt, requiredSpec]
        · simp [toolStep, hself, hd, hopt, requiredSpec]

/-- C8.  Required-list exactness of the schema deriver: the `required` list
built by the `Tool` decorator is exactly the names of the parameters
(excluding `self`) without a default and not optional, and the produced
`params_schema` carries that list under `"required"` exactly when it is
non-empty. -/
theorem c8_required_exactness (fn : String) (doc : Option String)
    (params : List PyParam) (func : JVal → ToolOutcome) :
    (toolDerive params).2 = requiredSpec params
    ∧ ∃ fs, (Tool fn doc params func).tool_params = .jobj fs
        ∧ JVal.objLookup "required" fs
            = (if requiredSpec params = [] then none
               else some (.jarr ((requiredSpec params).map JVal.js))) := by
  have hr : (toolDerive params).2 = requiredSpec params := by
    simpa using toolDerive_go params ([], [])
  refine ⟨hr, ?_⟩
  by_cases hreq : (toolDerive params).2 = []
  · refine ⟨[("type", .js "object"), ("properties", .jobj (toolDerive params).1),
       ("additionalProperties", .jb false)], ?_, ?_⟩
    · simp [Tool, hreq]
    · rw [← hr, hreq]
      simp [JVal.objLookup]
  · refine ⟨[("type", .js "object"), ("properties", .jobj (toolDerive params).1),
       ("additionalProperties", .jb false),
       ("required", .jarr ((toolDerive params).2.map JVal.js))], ?_, ?_⟩
    · simp [Tool, hreq]
    · rw [← hr]
      simp [JVal.objLookup, hreq]

/-- C9 counterexample.  An in-memory (non-persisting) manager holding a
system message followed by a user message: `fetch_conversation(2)` returns
only the user message, not the last two messages unfiltered as the claim
states. -/
theorem c9_counterexample :
    sw_init "/r" false none [] = .ok (⟨[], 0, false, sw_default_file "/r"⟩, [])
    ∧ sw_fetch_conversation
        (sw_add_message (sw_add_message ⟨[], 0, false, sw_default_file "/r"⟩
          ⟨"system", "note", 0⟩) ⟨"user", "hi", 0⟩) 2
      = [⟨"user", "hi", 0⟩]
    ∧ [(⟨"user", "hi", 0⟩ : Message)] ≠ [⟨"system", "note", 0⟩, ⟨"user", "hi", 0⟩] := by
  decide

/-- C9 (amended).  `fetch_conversation` of the sliding-window manager
returns the last `window_size` messages *after excluding system-role
messages* (this filter applies to the in-memory variant too); no other role
is filtered, so on a log without system messages it is exactly the last
`window_size` messages. -/
theorem c9_fetch_last_window_excluding_system (s : SWState) (w : Nat) (hw : 0 < w) :
    sw_fetch_conversation s w
      = (s.messages.filter fun m => m.role ≠ "system").rtake w
    ∧ (∀ m ∈ sw_fetch_conversation s w, m.role ≠ "system")
    ∧ ((∀ m ∈ s.messages, m.role ≠ "system") →
        sw_fetch_conversation s w = s.messages.rtake w) := by
  have hslice : ∀ l : List Message, pyLastSlice w l = l.rtake w := by
    intro l
    unfold pyLastSlice List.rtake
    simp [Nat.pos_iff_ne_zero.mp hw]
  refine ⟨hslice _, ?_, ?_⟩
  · intro m hm
    unfold sw_fetch_conversation at hm
    rw [hslice] at hm
    unfold List.rtake at hm
    have := List.drop_subset _ _ hm
    simpa using List.of_mem_filter this
  · intro hall
    unfold sw_fetch_conversation
    rw [List.filter_eq_self.mpr (fun m hm => by simpa using hall m hm)]
    exact hslice _

/-- C9 witness for the amended theorem at a concrete input. -/
theorem c9_witness :
    sw_fetch_conversation ⟨[⟨"system", "note", 0⟩, ⟨"user", "hi", 0⟩], 0, false, ""⟩ 2
      = ([(⟨"system", "note", 0⟩ : Message), ⟨"user", "hi", 0⟩].filter
          fun m => m.role ≠ "system").rtake 2 :=
  (c9_fetch_last_window_excluding_system
    ⟨[⟨"system", "note", 0⟩, ⟨"user", "hi", 0⟩], 0, false, ""⟩ 2 (by decide)).1

/-- C10.  `finalize` of the sliding-window manager never appends a
system-role record to the durable log, while the `persisted_count` cursor
still advances to the full length of the in-memory log (silently skipping
the system messages). -/
theorem c10_finalize_skips_system (s : SWState) (fs : FileSys) :
    (∀ m ∈ (sw_finalize s fs).2.2, m.role ≠ "system")
    ∧ (s.persist_to_file = true → s.persisted_count < s.messages.length →
        ((sw_finalize s fs).1).persisted_count = s.messages.length) := by
  constructor
  · intro m hm
    by_cases h1 : s.persist_to_file = true
    · by_cases h2 : s.messages.length ≤ s.persisted_count
      · simp [sw_finalize, h1, h2] at hm
      · by_cases h3 : List.drop s.persisted_count s.messages = []
        · simp [sw_finalize, h1, h2, h3] at hm
        · simp [sw_finalize, h1, h2, h3] at hm
          exact hm.2
    · simp [sw_finalize, h1] at hm
  · intro hp hlt
    unfold sw_finalize
    rw [if_neg (by simp [hp]), if_neg (by omega)]
    rw [if_neg (by
      intro hnil
      rw [List.drop_eq_nil_iff] at hnil
      omega)]

/-- C10 witness: a log with one pending user and one pending system message. -/
theorem c10_witness :
    (∀ m ∈ (sw_finalize ⟨[⟨"user", "u", 0⟩, ⟨"system", "x", 0⟩], 0, true, "f"⟩ []).2.2,
       m.role ≠ "system")
    ∧ ((sw_finalize ⟨[⟨"user", "u", 0⟩, ⟨"system", "x", 0⟩], 0, true, "f"⟩ []).1).persisted_count
        = 2 := by
  have h := c10_finalize_skips_system ⟨[⟨"user", "u", 0⟩, ⟨"system", "x", 0⟩], 0, true, "f"⟩ []
  exact ⟨h.1, h.2 rfl (by decide)⟩

/-- C1 (code bug).  The constructor's early-return probes
`f"{ROOT}/.krishna/{self._conversation_file}"` — with the default,
`self._conversation_file` is already the absolute
`f"{ROOT}/.krishna/conversation_history.ndjson"`, so the probed (doubled)
path never exists and the log is never reloaded.  Concretely with
`ROOT = "/r"`: a first instance persists one user message to the default
log file, the file then really holds that record, yet a second instance
constructed over the same file system loads nothing, and its fetch of the
full window is `[]` instead of the original message. -/
theorem c1_reload_never_happens :
    sw_init "/r" true none [] = .ok (⟨[], 0, true, sw_default_file "/r"⟩, [])
    ∧ sw_finalize (sw_add_message ⟨[], 0, true, sw_default_file "/r"⟩ ⟨"user", "hello", 0⟩) []
        = (⟨[⟨"user", "hello", 0⟩], 1, true, sw_default_file "/r"⟩,
           [(sw_default_file "/r", [⟨"user", "hello", 0⟩])],
           [⟨"user", "hello", 0⟩])
    ∧ fsLookup (sw_default_file "/r") [(sw_default_file "/r", [⟨"user", "hello", 0⟩])]
        = some [⟨"user", "hello", 0⟩]
    ∧ sw_init "/r" true none [(sw_default_file "/r", [⟨"user", "hello", 0⟩])]
        = .ok (⟨[], 0, true, sw_default_file "/r"⟩,
               [(sw_default_file "/r", [⟨"user", "hello", 0⟩])])
    ∧ sw_fetch_conversation ⟨[], 0, true, sw_default_file "/r"⟩ 1 = []
    ∧ ([] : List Message) ≠ [⟨"user", "hello", 0⟩] := by
  decide

/-! ### Token accounting (C4, C5) -/

/-- The token-accounting invariant: the running total equals the sum of the
retained messages' token counts. -/
def TAInv (s : TAState) : Prop := s.total_tokens = sumTokens s.messages

theorem sumTokens_nil : sumTokens [] = 0 := rfl

theorem sumTokens_cons (m : Message) (l : List Message) :
    sumTokens (m :: l) = count_message_tokens m + sumTokens l := by
  simp [sumTokens]

theorem sumTokens_append (l₁ l₂ : List Message) :
    sumTokens (l₁ ++ l₂) = sumTokens l₁ + sumTokens l₂ := by
  simp [sumTokens]

theorem sumTokens_reverse (l : List Message) : sumTokens l.reverse = sumTokens l := by
  simp [sumTokens, List.sum_reverse]

theorem sumTokens_nonneg (l : List Message) : 0 ≤ sumTokens l := by
  induction l with
  | nil => simp [sumTokens]
  | cons m t ih =>
    rw [sumTokens_cons]
    have : (0 : Int) ≤ count_message_tokens m := by
      simp [count_message_tokens]
    omega

theorem dropLoop_sum (target : Int) :
    ∀ (l : List Message) (tot : Int), tot = sumTokens l →
      (dropLoop target l tot).2 = sumTokens (dropLoop target l tot).1
  | [], tot, h => by simpa [dropLoop] using h
  | m :: rest, tot, h => by
    unfold dropLoop
    by_cases htot : tot ≤ target
    · simpa [htot] using h
    · rw [sumTokens_cons] at h
      simpa [htot] using dropLoop_sum target rest (tot - count_message_tokens m) (by omega)

theorem dropLoop_suffix (target : Int) :
    ∀ (l : List Message) (tot : Int), ∃ pre, l = pre ++ (dropLoop target l tot).1
  | [], tot => ⟨[], by simp [dropLoop]⟩
  | m :: rest, tot => by
    unfold dropLoop
    by_cases htot : tot ≤ target
    · exact ⟨[], by simp [htot]⟩
    · obtain ⟨pre, hpre⟩ := dropLoop_suffix target rest (tot - count_message_tokens m)
      exact ⟨m :: pre, by simp [htot, ← hpre]⟩

theorem dropLoop_le (target : Int) :
    ∀ (l : List Message) (m : Message) (tot : Int),
      tot = sumTokens l → l.getLast? = some m → count_message_tokens m ≤ target →
      (dropLoop target l tot).2 ≤ target
  | [], m, tot, _, hl, _ => by simp at hl
  | x :: rest, m, tot, h, hl, hm => by
    unfold dropLoop
    by_cases htot : tot ≤ target
    · simpa [htot] using htot
    · rw [if_neg htot]
      match rest, hl with
      | [], hl =>
        rw [List.getLast?_singleton] at hl
        rw [sumTokens_cons, sumTokens_nil] at h
        cases hl
        omega
      | y :: t, hl =>
        rw [List.getLast?_cons_cons] at hl
        rw [sumTokens_cons] at h
        exact dropLoop_le target (y :: t) m (tot - count_message_tokens x) (by omega) hl hm

theorem splitRev_tempFinal (half : Int) :
    ∀ (l : List Message) (temp : Int),
      (splitRev half l temp).2.2 = temp ∨ (splitRev half l temp).2.2 < half
  | [], temp => by simp [splitRev]
  | m :: rest, temp => by
    unfold splitRev
    by_cases hc : temp + count_message_tokens m < half
    · rcases splitRev_tempFinal half rest (temp + count_message_tokens m) with h | h
      · right
        simpa [hc] using by omega
      · right
        simpa [hc] using h
    · simpa [hc] using splitRev_tempFinal half rest temp

theorem splitRev_keep_sum (half : Int) :
    ∀ (l : List Message) (temp : Int),
      sumTokens (splitRev half l temp).1 + temp = (splitRev half l temp).2.2
  | [], temp => by simp [splitRev, sumTokens_nil]
  | m :: rest, temp => by
    unfold splitRev
    by_cases hc : temp + count_message_tokens m < half
    · have ih := splitRev_keep_sum half rest (temp + count_message_tokens m)
      simp only [hc, if_true]
      rw [sumTokens_cons]
      omega
    · have ih := splitRev_keep_sum half rest temp
      simpa [hc] using ih

theorem splitRev_summ_empty (half : Int) :
    ∀ (l : List Message) (temp : Int),
      (splitRev half l temp).2.1 = [] → (splitRev half l temp).1 = l
  | [], temp => by simp [splitRev]
  | m :: rest, temp => by
    unfold splitRev
    by_cases hc : temp + count_message_tokens m < half
    · intro h
      simp only [hc, if_true] at h ⊢
      rw [splitRev_summ_empty half rest _ h]
    · intro h
      simp [hc] at h

theorem ta_drop_oldest_inv (target : Int) (s : TAState) (h : TAInv s) :
    TAInv (ta_drop_oldest target s) :=
  dropLoop_sum target s.messages s.total_tokens h

theorem ta_recalculate_inv (s : TAState) : TAInv (ta_recalculate s) := rfl

theorem ta_summarize_inv (target : Int) (s : TAState) (h : TAInv s) :
    TAInv (ta_summarize target s) := by
  unfold ta_summarize
  by_cases hb : s.summarizer_func.isNone = true ∨ s.messages.length < 4
  · rw [if_pos hb]
    exact ta_drop_oldest_inv target s h
  · rw [if_neg hb]
    cases hsf : s.summarizer_func with
    | none => simp [hsf] at hb
    | some f =>
      simp only [hsf]
      split
      · exact h
      · split
        · exact ta_recalculate_inv _
        · exact ta_drop_oldest_inv target s h

theorem ta_truncate_middle_inv (target : Int) (s : TAState) (h : TAInv s) :
    TAInv (ta_truncate_middle target s) := by
  unfold ta_truncate_middle
  split
  · exact ta_drop_oldest_inv target s h
  · exact ta_recalculate_inv _

theorem ta_handle_overflow_inv (s : TAState) (h : TAInv s) :
    TAInv (ta_handle_overflow s) := by
  unfold ta_handle_overflow
  split
  · exact h
  · cases hst : s.overflow_strategy
    · simpa [hst] using ta_drop_oldest_inv _ s h
    · simpa [hst] using ta_summarize_inv _ s h
    · simpa [hst] using ta_truncate_middle_inv _ s h

theorem ta_add_message_inv (s : TAState) (m : Message) (h : TAInv s) :
    TAInv (ta_add_message s m) := by
  apply ta_handle_overflow_inv
  unfold TAInv at h ⊢
  simp only [sumTokens_append, sumTokens_cons, sumTokens_nil]
  omega

theorem ta_run_inv (msgs : List Message) :
    ∀ (s : TAState), TAInv s → TAInv (msgs.foldl ta_add_message s) := by
  induction msgs with
  | nil => exact fun s h => h
  | cons m rest ih =>
    intro s h
    exact ih _ (ta_add_message_inv s m h)

/-- All overflow handling leaves the configuration fields untouched. -/
theorem ta_add_message_config (s : TAState) (m : Message) :
    (ta_add_message s m).max_tokens = s.max_tokens
    ∧ (ta_add_message s m).reserve_tokens = s.reserve_tokens
    ∧ (ta_add_message s m).overflow_strategy = s.overflow_strategy
    ∧ (ta_add_message s m).summarizer_func = s.summarizer_func := by
  refine ⟨?_, ?_, ?_, ?_⟩ <;>
    · unfold ta_add_message ta_handle_overflow ta_summarize ta_truncate_middle
        ta_drop_oldest ta_recalculate
      dsimp only
      repeat' split
      all_goals rfl

theorem ta_run_config (msgs : List Message) :
    ∀ (s : TAState),
      ((msgs.foldl ta_add_message s).max_tokens = s.max_tokens
      ∧ (msgs.foldl ta_add_message s).reserve_tokens = s.reserve_tokens
      ∧ (msgs.foldl ta_add_message s).overflow_strategy = s.overflow_strategy
      ∧ (msgs.foldl ta_add_message s).summarizer_func = s.summarizer_func) := by
  induction msgs with
  | nil => exact fun s => ⟨rfl, rfl, rfl, rfl⟩
  | cons m rest ih =>
    intro s
    have h1 := ta_add_message_config s m
    have h2 := ih (ta_add_message s m)
    simp only [List.foldl_cons]
    exact ⟨h2.1.trans h1.1, h2.2.1.trans h1.2.1, h2.2.2.1.trans h1.2.2.1,
           h2.2.2.2.trans h1.2.2.2⟩

theorem ta_drop_oldest_bound (target : Int) (s : TAState) (m : Message)
    (hinv : TAInv s) (hlast : s.messages.getLast? = some m)
    (hm : count_message_tokens m ≤ target) :
    (ta_drop_oldest target s).total_tokens ≤ target :=
  dropLoop_le target s.messages m s.total_tokens hinv hlast hm

theorem ta_summarize_bound (target : Int) (s : TAState) (m : Message)
    (hinv : TAInv s) (hlast : s.messages.getLast? = some m)
    (hm : count_message_tokens m ≤ target)
    (hover : target < s.total_tokens) :
    (ta_summarize target s).total_tokens ≤ target := by
  have htarget : 0 ≤ target := by
    have : (0 : Int) ≤ count_message_tokens m := by simp [count_message_tokens]
    omega
  have hhalf : Int.fdiv target 2 ≤ target := by
    rw [Int.fdiv_eq_ediv _ (by omega)]
    exact Int.ediv_le_self 2 htarget
  unfold ta_summarize
  by_cases hb : s.summarizer_func.isNone = true ∨ s.messages.length < 4
  · rw [if_pos hb]
    exact ta_drop_oldest_bound target s m hinv hlast hm
  · rw [if_neg hb]
    dsimp only
    by_cases hse : (splitRev (Int.fdiv target 2) s.messages.reverse 0).2.1.reverse = []
    · exfalso
      have hkeep := splitRev_summ_empty (Int.fdiv target 2) s.messages.reverse 0
        (by simpa using hse)
      have hsum := splitRev_keep_sum (Int.fdiv target 2) s.messages.reverse 0
      rw [hkeep, sumTokens_reverse] at hsum
      have hfin := splitRev_tempFinal (Int.fdiv target 2) s.messages.reverse 0
      unfold TAInv at hinv
      rcases hfin with hfin | hfin <;> omega
    · rw [if_neg hse]
      cases hsf : s.summarizer_func with
      | none => simp [hsf] at hb
      | some f =>
        dsimp only
        cases hres : f (splitRev (Int.fdiv target 2) s.messages.reverse 0).2.1.reverse with
        | ok summary =>
          have hsum := splitRev_keep_sum (Int.fdiv target 2) s.messages.reverse 0
          have hfin := splitRev_tempFinal (Int.fdiv target 2) s.messages.reverse 0
          unfold ta_recalculate
          dsimp only
          rw [sumTokens_cons, sumTokens_reverse]
          have hc0 : count_message_tokens
              ⟨"system", "[Conversation Summary]: " ++ summary, 0⟩ = 0 := rfl
          rw [hc0]
          rcases hfin with hfin | hfin <;> omega
        | error e =>
          exact ta_drop_oldest_bound target s m hinv hlast hm

theorem ta_add_message_bound (s : TAState) (m : Message) (hinv : TAInv s)
    (hstrat : s.overflow_strategy ≠ .truncate_middle)
    (hm : (m.token_count : Int) ≤ s.max_tokens - s.reserve_tokens) :
    (ta_add_message s m).total_tokens + s.reserve_tokens ≤ s.max_tokens := by
  have hcount : count_message_tokens m ≤ s.max_tokens - s.reserve_tokens := hm
  have hinv1 : TAInv
      { s with messages := s.messages ++ [m]
               total_tokens := s.total_tokens + count_message_tokens m } := by
    unfold TAInv at hinv ⊢
    dsimp only
    rw [sumTokens_append, sumTokens_cons, sumTokens_nil]
    omega
  have hlast1 : (s.messages ++ [m]).getLast? = some m := List.getLast?_concat _
  unfold ta_add_message ta_handle_overflow
  dsimp only
  split
  · rename_i hguard
    simpa using hguard
  · rename_i hguard
    cases hst : s.overflow_strategy with
    | drop_oldest =>
      dsimp only
      rw [hst] at hinv1
      have hb := ta_drop_oldest_bound (s.max_tokens - s.reserve_tokens) _ m hinv1 hlast1 hcount
      omega
    | summarize =>
      dsimp only
      rw [hst] at hinv1
      have hb := ta_summarize_bound (s.max_tokens - s.reserve_tokens) _ m hinv1 hlast1 hcount
        (by dsimp only; omega)
      omega
    | truncate_middle => exact absurd hst hstrat

/-- C4 (amended).  After every `add_message` (overflow pass or not) the
running `total_tokens` equals the sum of `token_count` over the retained
messages, for all three strategies; and the budget bound
`total_tokens + reserve_tokens ≤ max_tokens` holds afterwards under
`DROP_OLDEST` and `SUMMARIZE` (including all fallback paths) whenever the
newest message alone does not exceed the budget — but not under
`TRUNCATE_MIDDLE`, which keeps the first two and last two messages
regardless of their size (see the counterexample). -/
theorem c4_token_accounting (maxT res : Int) (strat : OverflowStrategy)
    (summ : Option (List Message → Except String String))
    (msgs : List Message) (m : Message) :
    ((msgs ++ [m]).foldl ta_add_message (ta_init maxT strat res summ)).total_tokens
        = sumTokens ((msgs ++ [m]).foldl ta_add_message (ta_init maxT strat res summ)).messages
    ∧ (strat ≠ .truncate_middle → (m.token_count : Int) ≤ maxT - res →
        ((msgs ++ [m]).foldl ta_add_message (ta_init maxT strat res summ)).total_tokens
          + res ≤ maxT) := by
  have hfold : (msgs ++ [m]).foldl ta_add_message (ta_init maxT strat res summ)
      = ta_add_message (msgs.foldl ta_add_message (ta_init maxT strat res summ)) m := by
    simp [List.foldl_append]
  have hinv' : TAInv (msgs.foldl ta_add_message (ta_init maxT strat res summ)) :=
    ta_run_inv msgs _ rfl
  have hc := ta_run_config msgs (ta_init maxT strat res summ)
  constructor
  · rw [hfold]
    exact ta_add_message_inv _ m hinv'
  · intro h1 h2
    rw [hfold]
    have hb := ta_add_message_bound (msgs.foldl ta_add_message (ta_init maxT strat res summ)) m
      hinv' (by rw [hc.2.2.1]; exact h1) (by rw [hc.1, hc.2.1]; exact h2)
    rw [hc.1, hc.2.1] at hb
    exact hb

/-- C4 witness: `DROP_OLDEST`, `max_tokens = 10`, `reserve = 0`, two
6-token user messages — the pass leaves the total within budget and equal
to the retained sum. -/
theorem c4_witness :
    (([⟨"user", "a", 6⟩] ++ [⟨"user", "b", 6⟩] : List Message).foldl ta_add_message
        (ta_init 10 .drop_oldest 0 none)).total_tokens
      = sumTokens (([⟨"user", "a", 6⟩] ++ [⟨"user", "b", 6⟩] : List Message).foldl
          ta_add_message (ta_init 10 .drop_oldest 0 none)).messages
    ∧ (([⟨"user", "a", 6⟩] ++ [⟨"user", "b", 6⟩] : List Message).foldl ta_add_message
        (ta_init 10 .drop_oldest 0 none)).total_tokens + 0 ≤ 10 := by
  have h := c4_token_accounting 10 0 .drop_oldest none [⟨"user", "a", 6⟩] ⟨"user", "b", 6⟩
  exact ⟨h.1, h.2 (by decide) (by decide)⟩

/-- C4 counterexample.  `TRUNCATE_MIDDLE`, `max_tokens = 10`,
`reserve = 0`, token counts 2,2,2,2 then 7: the overflow pass retains the
first two and last two messages with recomputed total 13, so
`total_tokens + reserve > max_tokens` even though the newest message (7
tokens) alone is within the budget — refuting the claimed bound. -/
theorem c4_counterexample :
    (([⟨"user", "a", 2⟩, ⟨"user", "b", 2⟩, ⟨"user", "c", 2⟩, ⟨"user", "d", 2⟩,
       ⟨"user", "e", 7⟩] : List Message).foldl ta_add_message
        (ta_init 10 .truncate_middle 0 none)).total_tokens = 13
    ∧ ¬ ((([⟨"user", "a", 2⟩, ⟨"user", "b", 2⟩, ⟨"user", "c", 2⟩, ⟨"user", "d", 2⟩,
       ⟨"user", "e", 7⟩] : List Message).foldl ta_add_message
        (ta_init 10 .truncate_middle 0 none)).total_tokens + 0 ≤ 10)
    ∧ ((7 : Int) ≤ 10 - 0) := by
  refine ⟨rfl, by decide, by decide⟩

/-- C5 counterexample.  `DROP_OLDEST`, `max_tokens = 10`, `reserve = 0`:
after adding two 6-token user messages, the first user message has been
evicted from the retained list. -/
theorem c5_counterexample :
    (⟨"user", "a", 6⟩ : Message) ∈
      (ta_add_message (ta_init 10 .drop_oldest 0 none) ⟨"user", "a", 6⟩).messages
    ∧ (⟨"user", "a", 6⟩ : Message).role = "user"
    ∧ (ta_add_message (ta_add_message (ta_init 10 .drop_oldest 0 none) ⟨"user", "a", 6⟩)
        ⟨"user", "b", 6⟩).messages = [⟨"user", "b", 6⟩]
    ∧ (⟨"user", "a", 6⟩ : Message) ∉
      (ta_add_message (ta_add_message (ta_init 10 .drop_oldest 0 none) ⟨"user", "a", 6⟩)
        ⟨"user", "b", 6⟩).messages := by
  refine ⟨by decide, rfl, rfl, by decide⟩

/-- C5 (amended).  Budget eviction is role-agnostic; no special case
protects user-authored messages.  Under `DROP_OLDEST`, after any
`add_message` the retained list is exactly a suffix of the previous log
with the new message appended — determined purely by token counts, so any
older message (user-authored ones included) may be evicted. -/
theorem c5_eviction_role_agnostic (s : TAState) (m : Message)
    (h : s.overflow_strategy = .drop_oldest) :
    ∃ pre, s.messages ++ [m] = pre ++ (ta_add_message s m).messages := by
  unfold ta_add_message ta_handle_overflow
  dsimp only
  split
  · exact ⟨[], rfl⟩
  · rw [h]
    dsimp only
    unfold ta_drop_oldest
    dsimp only
    exact dropLoop_suffix _ _ _

/-- C5 witness for the amended statement at the counterexample's input. -/
theorem c5_witness :
    ∃ pre,
      (ta_add_message (ta_init 10 .drop_oldest 0 none) ⟨"user", "a", 6⟩).messages
          ++ [⟨"user", "b", 6⟩]
        = pre ++ (ta_add_message
            (ta_add_message (ta_init 10 .drop_oldest 0 none) ⟨"user", "a", 6⟩)
            ⟨"user", "b", 6⟩).messages :=
  c5_eviction_role_agnostic
    (ta_add_message (ta_init 10 .drop_oldest 0 none) ⟨"user", "a", 6⟩)
    ⟨"user", "b", 6⟩ rfl

/-! ### Action-loop theorems (C2, C3, C6, C7)

`krAddList` instantiates the abstract conversation manager with a plain
append-only in-memory log, which is how every `BaseConversationManager`
implements `add_message`. -/

/-- `add_message` as plain append on an in-memory log. -/
def krAddList (l : List Message) (m : Message) : List Message := l ++ [m]

theorem krLoop_iterations {σ : Type} (add : σ → Message → σ) (backend : Nat → String)
    (tools : List BaseTool) :
    ∀ (fuel done : Nat) (s : σ) (ys : List String),
      (krLoop add backend tools fuel done s ys).iterations ≤ done + fuel
  | 0, done, s, ys => by simp [krLoop]
  | fuel + 1, done, s, ys => by
    unfold krLoop
    dsimp only
    split
    · have h := krLoop_iterations add backend tools fuel (done + 1)
        (krStep add tools (backend done) s).1
        (ys ++ (krStep add tools (backend done) s).2.1)
      calc _ ≤ done + 1 + fuel := h
      _ = done + (fuel + 1) := by omega
    · dsimp only
      omega

theorem krStep_extends (tools : List BaseTool) (reply : String) (s : List Message) :
    ∃ m2, (krStep krAddList tools reply s).1 = s ++ [⟨"assistant", reply, 0⟩, m2] := by
  unfold krStep krAddList
  repeat' split
  all_goals exact ⟨_, List.append_assoc _ _ _⟩

theorem krLoop_extends (backend : Nat → String) (tools : List BaseTool) :
    ∀ (fuel done : Nat) (l : List Message) (ys : List String),
      ∃ t, (krLoop krAddList backend tools fuel done l ys).finalState = l ++ t
  | 0, done, l, ys => ⟨[⟨"system", max_iter_text, 0⟩], rfl⟩
  | fuel + 1, done, l, ys => by
    unfold krLoop
    dsimp only
    split
    · obtain ⟨m2, hm⟩ := krStep_extends tools (backend done) l
      obtain ⟨t, ht⟩ := krLoop_extends backend tools fuel (done + 1)
        (krStep krAddList tools (backend done) l).1
        (ys ++ (krStep krAddList tools (backend done) l).2.1)
      refine ⟨[⟨"assistant", backend done, 0⟩] ++ [m2] ++ t, ?_⟩
      dsimp only at ht ⊢
      rw [ht, hm]
      simp
    · obtain ⟨m2, hm⟩ := krStep_extends tools (backend done) l
      dsimp only
      exact ⟨_, hm⟩

/-- Scripted reply for C3: a valid tool-call Action requesting continuation. -/
def hbReply : String :=
  "\x7b\"tool\": \x7b\"tool_name\": \"noop\", \"tool_params\": \x7b\"x\": \"1\"\x7d\x7d, \"request_heartbeat\": true\x7d"

/-- A registered no-op tool for the scripted runs. -/
def noopTool : BaseTool :=
  ⟨"noop", "", .jobj [("type", .js "object")], fun _ => .ok (some "ok")⟩

/-- Scripted reply for C3's counterexample: a valid plan naming an
unregistered tool (the plan-act-observe loop silently skips it and loops). -/
def paoPlanReply : String :=
  "\x7b\"plan\": [\x7b\"thought\": \"loop\", \"tool\": \x7b\"tool_name\": \"ghost\", \"tool_params\": \x7b\x7d\x7d\x7d]\x7d"

/-- C3 (amended).  `KrishnaAgent.send_message` performs at most
`MAX_AGENT_LOOPS = 28` model invocations for *every* backend and manager;
the manager log is only ever appended to (state stays consistent); and with
a scripted backend that always returns a valid heartbeat tool-call Action
it aborts with the iteration-limit failure as the last yield after exactly
28 iterations.  (`PlanActObserveAgent` has no such bound — see the
counterexample.) -/
theorem c3_iteration_bound :
    (∀ (σ : Type) (add : σ → Message → σ) (backend : Nat → String)
        (tools : List BaseTool) (s0 : σ) (user : String),
        (krishna_send_message add backend tools s0 user).iterations ≤ MAX_AGENT_LOOPS)
    ∧ (∀ (backend : Nat → String) (tools : List BaseTool) (l0 : List Message) (user : String),
        ∃ t, (krishna_send_message krAddList backend tools l0 user).finalState
              = l0 ++ ⟨"user", user, 0⟩ :: t)
    ∧ (krishna_send_message krAddList (fun _ => hbReply) [noopTool] [] "go").iterations
        = MAX_AGENT_LOOPS
    ∧ (krishna_send_message krAddList (fun _ => hbReply) [noopTool] [] "go").hitLimit = true
    ∧ (krishna_send_message krAddList (fun _ => hbReply) [noopTool] [] "go").yields.getLast?
        = some max_iter_text := by
  refine ⟨?_, ?_, by decide, by decide, by decide⟩
  · intro σ add backend tools s0 user
    have h := krLoop_iterations add backend (krishna_configure_tools tools)
      MAX_AGENT_LOOPS 0 (add s0 ⟨"user", user, 0⟩) []
    simpa [krishna_send_message] using h
  · intro backend tools l0 user
    obtain ⟨t, ht⟩ := krLoop_extends backend (krishna_configure_tools tools)
      MAX_AGENT_LOOPS 0 (krAddList l0 ⟨"user", user, 0⟩) []
    refine ⟨t, ?_⟩
    have : krAddList l0 ⟨"user", user, 0⟩ ++ t = l0 ++ ⟨"user", user, 0⟩ :: t := by
      simp [krAddList]
    rw [krishna_send_message, ← this]
    exact ht

/-- C3 counterexample.  `PlanActObserveAgent.send_message` is a `while
True` loop with no iteration bound (`MAX_AGENT_LOOPS` is defined in the
module but never used): with a backend that always returns a valid plan
naming an unregistered tool, the loop is still running after 29 > 28
iterations. -/
theorem c3_counterexample :
    (pao_send_message krAddList id ([] : List BaseTool) (fun _ => paoPlanReply)
        (fun _ => .no) (MAX_AGENT_LOOPS + 1) [] "go").isOutOfFuel = true
    ∧ MAX_AGENT_LOOPS < MAX_AGENT_LOOPS + 1 := by
  exact ⟨by decide, by decide⟩

/-- The pair of messages the Krishna loop appends on each iteration whose
reply contains no JSON: the assistant reply plus the corrective system
message, repeated for `fuel` iterations starting at backend index `done`. -/
def noJsonBlock (backend : Nat → String) : Nat → Nat → List Message
  | 0, _ => []
  | fuel + 1, done =>
    ⟨"assistant", backend done, 0⟩ :: ⟨"system", no_json_text, 0⟩ ::
      noJsonBlock backend fuel (done + 1)

theorem krLoop_noJson (backend : Nat → String) (tools : List BaseTool)
    (h : ∀ n, extract_json_from_text (backend n) = none) :
    ∀ (fuel done : Nat) (l : List Message) (ys : List String),
      krLoop krAddList backend tools fuel done l ys
        = ⟨l ++ noJsonBlock backend fuel done ++ [⟨"system", max_iter_text, 0⟩],
           ys ++ [max_iter_text], done + fuel, true⟩
  | 0, done, l, ys => by simp [krLoop, krAddList, noJsonBlock]
  | fuel + 1, done, l, ys => by
    have hstep : krStep krAddList tools (backend done) l
        = (l ++ [⟨"assistant", backend done, 0⟩] ++ [⟨"system", no_json_text, 0⟩],
           [], true, .noJson) := by
      unfold krStep krAddList
      rw [h done]
    unfold krLoop
    dsimp only
    rw [hstep]
    dsimp only
    rw [krLoop_noJson backend tools h fuel (done + 1) _ _]
    simp [noJsonBlock]
    omega

/-- C2 (amended).  In `PlanActObserveAgent`, a backend reply containing no
parseable JSON object is the final answer: `send_message` returns its
user-facing text after exactly 1 iteration, having appended the assistant
message and called `finalize` (the reply is persisted).  In `KrishnaAgent`,
by contrast, such a reply is *not* returned: the loop appends the
corrective system message `no_json_text` and re-enters the model turn, so a
backend that never emits JSON drives the loop to the 28-iteration limit
(see the counterexample). -/
theorem c2_plain_reply_final_answer :
    (∀ (σ : Type) (add : σ → Message → σ) (finalizeOp : σ → σ)
        (tools : List BaseTool) (approve : Nat → PaoAnswer) (backend : Nat → String)
        (s0 : σ) (user : String) (fuel : Nat),
        extract_json_from_text (backend 0) = none → 0 < fuel →
        pao_send_message add finalizeOp tools backend approve fuel s0 user
          = .finished (extract_user_facing_text (backend 0) none)
              (finalizeOp (add (add s0 ⟨"user", user, 0⟩)
                ⟨"assistant", extract_user_facing_text (backend 0) none, 0⟩)) 1)
    ∧ (∀ (backend : Nat → String) (tools : List BaseTool) (l0 : List Message) (user : String),
        (∀ n, extract_json_from_text (backend n) = none) →
        krishna_send_message krAddList backend tools l0 user
          = ⟨l0 ++ [⟨"user", user, 0⟩] ++ noJsonBlock backend MAX_AGENT_LOOPS 0
               ++ [⟨"system", max_iter_text, 0⟩],
             [max_iter_text], MAX_AGENT_LOOPS, true⟩) := by
  constructor
  · intro σ add finalizeOp tools approve backend s0 user fuel h hf
    match fuel, hf with
    | fuel + 1, _ =>
      unfold pao_send_message paoLoop
      dsimp only
      rw [h]
  · intro backend tools l0 user h
    unfold krishna_send_message
    rw [krLoop_noJson backend (krishna_configure_tools tools) h MAX_AGENT_LOOPS 0 _ _]
    simp [krAddList]

/-- C2 counterexample.  `KrishnaAgent.send_message` with a backend that
always returns the plain reply `"Just a plain reply."`: the result is the
iteration-limit failure after 28 iterations, not the reply itself after 1
iteration (and corrective messages were emitted). -/
theorem c2_counterexample :
    (krishna_send_message krAddList (fun _ => "Just a plain reply.") [] [] "hello").iterations
        = 28
    ∧ (krishna_send_message krAddList (fun _ => "Just a plain reply.") [] [] "hello").hitLimit
        = true
    ∧ (krishna_send_message krAddList (fun _ => "Just a plain reply.") [] [] "hello").yields
        = [max_iter_text]
    ∧ (krishna_send_message krAddList (fun _ => "Just a plain reply.") [] [] "hello").yields
        ≠ ["Just a plain reply."] := by
  refine ⟨by decide, by decide, by decide, by decide⟩

/-- C2 witness: both halves of the amended theorem applied at the concrete
plain reply `"All done."`. -/
theorem c2_witness :
    pao_send_message (σ := List Message) krAddList id [] (fun _ => "All done.")
        (fun _ => PaoAnswer.no) 3 [] "hi"
      = .finished (extract_user_facing_text "All done." none)
          (id (krAddList (krAddList [] ⟨"user", "hi", 0⟩)
            ⟨"assistant", extract_user_facing_text "All done." none, 0⟩)) 1
    ∧ krishna_send_message krAddList (fun _ => "All done.") [] [] "hi"
        = ⟨[] ++ [⟨"user", "hi", 0⟩] ++ noJsonBlock (fun _ => "All done.") MAX_AGENT_LOOPS 0
             ++ [⟨"system", max_iter_text, 0⟩],
           [max_iter_text], MAX_AGENT_LOOPS, true⟩ := by
  have h := c2_plain_reply_final_answer
  exact ⟨h.1 (List Message) krAddList id [] (fun _ => PaoAnswer.no) (fun _ => "All done.")
      [] "hi" 3 rfl (by decide),
    h.2 (fun _ => "All done.") [] [] "hi" (fun _ => rfl)⟩

/-- C6 (reason: `Action` is spec-modelled, see `KAction`).  Schema-echo
rejection: in any iteration whose validated action resolves to a tool and
supplies `tool_params` Python-equal to that tool's declared
`params_schema`, the step appends the corrective system message (after the
assistant reply), never reaches tool dispatch (the branch taken is
`schemaEcho`, and the resulting state and yields are fixed independently of
every handler), and the loop continues. -/
theorem c6_schema_echo_rejected {σ : Type} (add : σ → Message → σ)
    (tools : List BaseTool) (reply : String) (s : σ)
    (span : String) (payload : JVal) (action : KAction) (selected_tool : BaseTool)
    (hx : extract_json_from_text reply = some (span, payload))
    (hv : validateAction payload = some action)
    (hr : resolve_tool tools action.tool_name = some selected_tool)
    (hobj : action.tool_params.isObj = true)
    (hecho : JVal.pyEq action.tool_params selected_tool.tool_params = true) :
    (krStep add tools reply s).2.2.2 = .schemaEcho selected_tool.tool_name
    ∧ (krStep add tools reply s).1
        = add (add s ⟨"assistant", reply, 0⟩)
            ⟨"system", schema_echo_text selected_tool.tool_name, 0⟩
    ∧ (krStep add tools reply s).2.2.1 = true
    ∧ (krStep add tools reply s).2.1 = [] := by
  unfold krStep
  rw [hx]
  dsimp only
  rw [hv]
  dsimp only
  rw [hr]
  dsimp only
  rw [if_neg (by rw [hobj]; simp), if_pos hecho]
  exact ⟨rfl, rfl, rfl, rfl⟩

/-- C7 (reason: `Action` is spec-modelled, see `KAction`).  Tool failures
are recoverable: whenever the resolved handler raises — an argument-shape
`TypeError` or any other exception — the step catches it, appends a
tool-role feedback message whose content is the error tag naming the tool
followed by the message, yields nothing fatal, and the loop continues;
`send_message` itself always returns normally (`krishna_send_message` is a
total function into `KrResult`). -/
theorem c7_tool_errors_recoverable {σ : Type} (add : σ → Message → σ)
    (tools : List BaseTool) (reply : String) (s : σ)
    (span : String) (payload : JVal) (action : KAction) (selected_tool : BaseTool)
    (hx : extract_json_from_text reply = some (span, payload))
    (hv : validateAction payload = some action)
    (hr : resolve_tool tools action.tool_name = some selected_tool)
    (hobj : action.tool_params.isObj = true)
    (hecho : JVal.pyEq action.tool_params selected_tool.tool_params = false)
    (msg : String)
    (hf : selected_tool.func action.tool_params = .typeError msg
        ∨ selected_tool.func action.tool_params = .raised msg) :
    ∃ kind, (kind = "Invalid arguments: " ∨ kind = "Execution error: ")
      ∧ (krStep add tools reply s).2.2.1 = true
      ∧ (krStep add tools reply s).2.2.2
          = .toolFailed selected_tool.tool_name
              (tool_error_feedback selected_tool.tool_name (kind ++ msg))
      ∧ (krStep add tools reply s).1
          = add (add s ⟨"assistant", reply, 0⟩)
              ⟨"tool", tool_error_feedback selected_tool.tool_name (kind ++ msg), 0⟩
      ∧ (krStep add tools reply s).2.1 = [] := by
  unfold krStep
  rw [hx]
  dsimp only
  rw [hv]
  dsimp only
  rw [hr]
  dsimp only
  rw [if_neg (by rw [hobj]; simp), if_neg (by rw [hecho]; simp)]
  rcases hf with hf | hf
  · rw [hf]
    exact ⟨"Invalid arguments: ", Or.inl rfl, rfl, rfl, rfl, rfl⟩
  · rw [hf]
    exact ⟨"Execution error: ", Or.inr rfl, rfl, rfl, rfl, rfl⟩

/-- Schema used by the C6 witness tool. -/
def c6schema : JVal :=
  .jobj [("type", .js "object"), ("properties", .jobj []),
         ("additionalProperties", .jb false)]

/-- The C6 witness tool. -/
def c6tool : BaseTool := ⟨"echoed", "", c6schema, fun _ => .ok (some "ran")⟩

/-- A scripted reply echoing the tool's own parameter schema as
`tool_params`. -/
def c6reply : String :=
  "\x7b\"tool\": \x7b\"tool_name\": \"echoed\", \"tool_params\": \x7b\"type\": \"object\", \"properties\": \x7b\x7d, \"additionalProperties\": false\x7d\x7d, \"request_heartbeat\": false\x7d"

/-- The decoded payload of `c6reply`. -/
def c6payload : JVal :=
  .jobj [("tool", .jobj [("tool_name", .js "echoed"), ("tool_params", c6schema)]),
         ("request_heartbeat", .jb false)]

/-- The validated action of `c6reply`. -/
def c6action : KAction := ⟨none, "echoed", c6schema, false⟩

set_option maxRecDepth 1000000 in
/-- C6 witness: the schema-echoing reply at the concrete tool. -/
theorem c6_witness :
    (krStep krAddList [c6tool] c6reply ([] : List Message)).2.2.2
        = .schemaEcho "echoed"
    ∧ (krStep krAddList [c6tool] c6reply []).1
        = krAddList (krAddList [] ⟨"assistant", c6reply, 0⟩)
            ⟨"system", schema_echo_text "echoed", 0⟩
    ∧ (krStep krAddList [c6tool] c6reply []).2.2.1 = true
    ∧ (krStep krAddList [c6tool] c6reply []).2.1 = [] := by
  have h := c6_schema_echo_rejected krAddList [c6tool] c6reply []
    c6reply c6payload c6action c6tool rfl rfl rfl rfl rfl
  exact h

/-- The C7 witness tool: its handler always raises. -/
def c7tool : BaseTool :=
  ⟨"bomb", "", .jobj [("type", .js "object")], fun _ => .raised "boom"⟩

/-- A scripted reply calling the raising tool with filled-in arguments. -/
def c7reply : String :=
  "\x7b\"tool\": \x7b\"tool_name\": \"bomb\", \"tool_params\": \x7b\"x\": \"1\"\x7d\x7d, \"request_heartbeat\": false\x7d"

/-- The decoded payload of `c7reply`. -/
def c7payload : JVal :=
  .jobj [("tool", .jobj [("tool_name", .js "bomb"),
                         ("tool_params", .jobj [("x", .js "1")])]),
         ("request_heartbeat", .jb false)]

/-- The validated action of `c7reply`. -/
def c7action : KAction := ⟨none, "bomb", .jobj [("x", .js "1")], false⟩

set_option maxRecDepth 1000000 in
/-- C7 witness: a raising handler at the concrete reply. -/
theorem c7_witness :
    ∃ kind, (kind = "Invalid arguments: " ∨ kind = "Execution error: ")
      ∧ (krStep krAddList [c7tool] c7reply ([] : List Message)).2.2.1 = true
      ∧ (krStep krAddList [c7tool] c7reply []).2.2.2
          = .toolFailed "bomb" (tool_error_feedback "bomb" (kind ++ "boom"))
      ∧ (krStep krAddList [c7tool] c7reply []).1
          = krAddList (krAddList [] ⟨"assistant", c7reply, 0⟩)
              ⟨"tool", tool_error_feedback "bomb" (kind ++ "boom"), 0⟩
      ∧ (krStep krAddList [c7tool] c7reply []).2.1 = [] := by
  have h := c7_tool_errors_recoverable krAddList [c7tool] c7reply []
    c7reply c7payload c7action c7tool rfl rfl rfl rfl rfl "boom" (Or.inr rfl)
  exact h
